import Mathlib

/-!
# Verification of the optical data-link calculation notebook

Shallow embedding of `Data_Link_Calculations.ipynb` (repository `jaseg/misc`,
directory `ihsm/ihsm-self-contained`). The notebook computes link-budget
quantities for an optical data link: the solid angle of a square detector,
photodiode irradiance / photocurrent / SNR, and two phototransistor current
estimates. Machine floats are embedded as real numbers; the Python arithmetic
expressions are translated term by term.
-/

open Real

/-- The uplink parameter record of the notebook's `par` table (after the
`common` defaults were merged in, which supplies `distance`). Field names and
values follow the source dictionary `par['uplink']` / `par['common']`. -/
structure UplinkParams where
  led_Ie : ℝ
  led_theta : ℝ
  led_current : ℝ
  pd_eff : ℝ
  pd_Ir0 : ℝ
  distance : ℝ

/-- `angle_norm = 4*math.atan(a*b / (2*d*math.sqrt(4*(d**2) + a**2 + b**2)))`,
the pyramid solid-angle expression appearing identically in
`calculate_pd_current` and in both `calculate_pt_current` variants
(there with `a = b = 1e-2`). -/
noncomputable def angle_norm (a b d : ℝ) : ℝ :=
  4 * Real.arctan (a * b / (2 * d * Real.sqrt (4 * d ^ 2 + a ^ 2 + b ^ 2)))

/-- `irradiance_pd = p['led_Ie'] * p['led_current']/20e-3 * angle_norm` from
`calculate_pd_current`, with the hard-coded square side `a = b = 1e-2`. -/
noncomputable def irradiance_pd (p : UplinkParams) : ℝ :=
  p.led_Ie * (p.led_current / 20e-3) * angle_norm 1e-2 1e-2 p.distance

/-- `current_pd = p['pd_eff'] * irradiance_pd` from `calculate_pd_current`. -/
noncomputable def current_pd (p : UplinkParams) : ℝ :=
  p.pd_eff * irradiance_pd p

/-- The SNR printed by `calculate_pd_current`:
`20*math.log10(current_pd/p['pd_Ir0'])`. -/
noncomputable def snr_pd (p : UplinkParams) : ℝ :=
  20 * Real.logb 10 (current_pd p / p.pd_Ir0)

/-- The concrete uplink parameters of the notebook's `par` table
(`distance` inherited from `par['common']`). -/
noncomputable def uplinkPar : UplinkParams :=
  { led_Ie := 145.0e-3 / 100 * 20
    led_theta := 20
    led_current := 20e-3
    pd_eff := 32e-6
    pd_Ir0 := 30e-9
    distance := 10e-3 }

/-- With both sides equal, the solid-angle expression collapses to the
closed-form pyramid formula in `s` and `d`. -/
lemma angle_norm_sq (s d : ℝ) :
    angle_norm s s d =
      4 * Real.arctan (s ^ 2 / (2 * d * Real.sqrt (4 * d ^ 2 + 2 * s ^ 2))) := by
  unfold angle_norm
  rw [show s * s = s ^ 2 by ring, show 4 * d ^ 2 + s ^ 2 + s ^ 2 = 4 * d ^ 2 + 2 * s ^ 2 by ring]

/-- C1: for every square side `s > 0` and distance `d > 0`, the solid angle
computed by `calculate_pd_current` (and identically by both
`calculate_pt_current` variants), namely
`4*atan(a*b/(2*d*sqrt(4*d^2+a^2+b^2)))` with `a = b = s`, equals the
closed-form pyramid solid-angle formula `4*atan(s^2/(2*d*sqrt(4*d^2+2*s^2)))`. -/
theorem solid_angle_closed_form (s d : ℝ) (hs : 0 < s) (hd : 0 < d) :
    angle_norm s s d =
      4 * Real.arctan (s ^ 2 / (2 * d * Real.sqrt (4 * d ^ 2 + 2 * s ^ 2))) :=
  angle_norm_sq s d

/-- Witness for C1 at `s = d = 1`. -/
theorem solid_angle_closed_form_witness :
    angle_norm 1 1 1 =
      4 * Real.arctan ((1 : ℝ) ^ 2 / (2 * 1 * Real.sqrt (4 * 1 ^ 2 + 2 * 1 ^ 2))) :=
  solid_angle_closed_form 1 1 one_pos one_pos

/-- The denominator of the closed-form solid-angle argument is positive for
`d > 0`. -/
lemma solid_angle_denom_pos (s d : ℝ) (hd : 0 < d) :
    0 < 2 * d * Real.sqrt (4 * d ^ 2 + 2 * s ^ 2) := by
  have h : (0 : ℝ) < 4 * d ^ 2 + 2 * s ^ 2 := by positivity
  have := Real.sqrt_pos.2 h
  positivity

/-- The inner argument of the closed form is strictly decreasing in `d`. -/
lemma inner_arg_anti_d (s d₁ d₂ : ℝ) (hs : 0 < s) (h₁ : 0 < d₁) (h₁₂ : d₁ < d₂) :
    s ^ 2 / (2 * d₂ * Real.sqrt (4 * d₂ ^ 2 + 2 * s ^ 2)) <
      s ^ 2 / (2 * d₁ * Real.sqrt (4 * d₁ ^ 2 + 2 * s ^ 2)) := by
  have h₂ : 0 < d₂ := h₁.trans h₁₂
  have hD₁ := solid_angle_denom_pos s d₁ h₁
  have hD₂ := solid_angle_denom_pos s d₂ h₂
  refine (div_lt_div_left (by positivity) hD₂ hD₁).2 ?_
  refine mul_lt_mul'' (by linarith) ?_ (by linarith) (Real.sqrt_nonneg _)
  exact Real.sqrt_lt_sqrt (by positivity) (by nlinarith)

/-- The inner argument of the closed form is strictly increasing in `s`. -/
lemma inner_arg_mono_s (d s₁ s₂ : ℝ) (hd : 0 < d) (h₁ : 0 < s₁) (h₁₂ : s₁ < s₂) :
    s₁ ^ 2 / (2 * d * Real.sqrt (4 * d ^ 2 + 2 * s₁ ^ 2)) <
      s₂ ^ 2 / (2 * d * Real.sqrt (4 * d ^ 2 + 2 * s₂ ^ 2)) := by
  have h₂ : 0 < s₂ := h₁.trans h₁₂
  have hB₁ : (0 : ℝ) ≤ 4 * d ^ 2 + 2 * s₁ ^ 2 := by positivity
  have hB₂ : (0 : ℝ) ≤ 4 * d ^ 2 + 2 * s₂ ^ 2 := by positivity
  have hD₁ := solid_angle_denom_pos s₁ d hd
  have hD₂ := solid_angle_denom_pos s₂ d hd
  rw [div_lt_div_iff hD₁ hD₂]
  have hsq1 : s₁ ^ 2 < s₂ ^ 2 := by nlinarith
  have hsq2 : s₁ ^ 4 < s₂ ^ 4 := by nlinarith
  have key : s₁ ^ 2 * Real.sqrt (4 * d ^ 2 + 2 * s₂ ^ 2) <
      s₂ ^ 2 * Real.sqrt (4 * d ^ 2 + 2 * s₁ ^ 2) := by
    have hpow : (s₁ ^ 2 * Real.sqrt (4 * d ^ 2 + 2 * s₂ ^ 2)) ^ 2 <
        (s₂ ^ 2 * Real.sqrt (4 * d ^ 2 + 2 * s₁ ^ 2)) ^ 2 := by
      rw [mul_pow, mul_pow, Real.sq_sqrt hB₁, Real.sq_sqrt hB₂]
      ring_nf
      nlinarith [mul_pos (mul_pos hd hd) (sub_pos.2 hsq2),
        mul_pos (mul_pos (pow_pos h₁ 2) (pow_pos h₂ 2)) (sub_pos.2 hsq1)]
    exact lt_of_pow_lt_pow_left 2
      (mul_nonneg (by positivity) (Real.sqrt_nonneg _)) hpow
  calc s₁ ^ 2 * (2 * d * Real.sqrt (4 * d ^ 2 + 2 * s₂ ^ 2)) =
      2 * d * (s₁ ^ 2 * Real.sqrt (4 * d ^ 2 + 2 * s₂ ^ 2)) := by ring
    _ < 2 * d * (s₂ ^ 2 * Real.sqrt (4 * d ^ 2 + 2 * s₁ ^ 2)) :=
      mul_lt_mul_of_pos_left key (by positivity)
    _ = s₂ ^ 2 * (2 * d * Real.sqrt (4 * d ^ 2 + 2 * s₁ ^ 2)) := by ring

/-- C2: for every fixed side length `s > 0` the computed solid angle
`4*atan(s^2/(2*d*sqrt(4*d^2+2*s^2)))` is strictly decreasing in the distance
`d` over `d > 0`, and for every fixed `d > 0` it is strictly increasing in
`s` over `s > 0`. -/
theorem solid_angle_monotone :
    (∀ s d₁ d₂ : ℝ, 0 < s → 0 < d₁ → d₁ < d₂ →
      angle_norm s s d₂ < angle_norm s s d₁) ∧
    (∀ d s₁ s₂ : ℝ, 0 < d → 0 < s₁ → s₁ < s₂ →
      angle_norm s₁ s₁ d < angle_norm s₂ s₂ d) := by
  constructor
  · intro s d₁ d₂ hs h₁ h₁₂
    rw [angle_norm_sq, angle_norm_sq]
    have := Real.arctan_strictMono (inner_arg_anti_d s d₁ d₂ hs h₁ h₁₂)
    linarith
  · intro d s₁ s₂ hd h₁ h₁₂
    rw [angle_norm_sq, angle_norm_sq]
    have := Real.arctan_strictMono (inner_arg_mono_s d s₁ s₂ hd h₁ h₁₂)
    linarith

/-- Witness for C2 at concrete side and distance values. -/
theorem solid_angle_monotone_witness :
    angle_norm 1 1 2 < angle_norm 1 1 1 ∧ angle_norm 1 1 1 < angle_norm 2 2 1 :=
  ⟨solid_angle_monotone.1 1 1 2 one_pos one_pos one_lt_two,
   solid_angle_monotone.2 1 1 2 one_pos one_pos one_lt_two⟩

/-- C3: the photocurrent `current_pd = pd_eff * led_Ie * (led_current/20e-3)
* angle_norm` is linear in the drive current and in the photodiode
efficiency: scaling `led_current` by `k` scales `current_pd` by `k`, and
scaling `pd_eff` by `k` scales `current_pd` by `k`, all other parameters
fixed. -/
theorem pd_current_linear :
    ∀ (p : UplinkParams) (k : ℝ),
      current_pd { p with led_current := k * p.led_current } = k * current_pd p ∧
      current_pd { p with pd_eff := k * p.pd_eff } = k * current_pd p := by
  intro p k
  constructor <;> simp only [current_pd, irradiance_pd] <;> ring

/-- Cancellation of a common nonzero factor in a real quotient (valid even
when the remaining denominator is zero). -/
lemma mul_div_mul_left_real (a b k : ℝ) (hk : k ≠ 0) : k * a / (k * b) = a / b := by
  rcases eq_or_ne b 0 with hb | hb
  · simp [hb]
  · field_simp
    ring

/-- C4: the SNR printed by `calculate_pd_current` equals
`20*log10(signal/dark_current)` with `signal = current_pd` and
`dark_current = pd_Ir0`, and scaling both simultaneously by `k > 0`
(scaling `pd_eff` scales `current_pd` by exactly `k`, as proved in
`pd_current_linear`) leaves the SNR unchanged. -/
theorem snr_formula_and_scale_invariance :
    (∀ p : UplinkParams, snr_pd p = 20 * Real.logb 10 (current_pd p / p.pd_Ir0)) ∧
    (∀ (p : UplinkParams) (k : ℝ), 0 < k →
      snr_pd { p with pd_eff := k * p.pd_eff, pd_Ir0 := k * p.pd_Ir0 } = snr_pd p) := by
  constructor
  · intro p
    rfl
  · intro p k hk
    simp only [snr_pd, current_pd, irradiance_pd]
    rw [show k * p.pd_eff * (p.led_Ie * (p.led_current / 20e-3) *
        angle_norm 1e-2 1e-2 p.distance) =
        k * (p.pd_eff * (p.led_Ie * (p.led_current / 20e-3) *
        angle_norm 1e-2 1e-2 p.distance)) from by ring]
    rw [mul_div_mul_left_real _ _ _ (ne_of_gt hk)]

/-- Witness for C4 at the notebook's uplink parameters and `k = 2`. -/
theorem snr_formula_and_scale_invariance_witness :
    snr_pd { uplinkPar with pd_eff := 2 * uplinkPar.pd_eff, pd_Ir0 := 2 * uplinkPar.pd_Ir0 } =
      snr_pd uplinkPar :=
  snr_formula_and_scale_invariance.2 uplinkPar 2 two_pos

/-- The two arithmetic exceptions Python can raise while evaluating
`calculate_pd_current`: `ZeroDivisionError` from `/`, and the `ValueError`
(math domain error) from `math.sqrt` or `math.log10` on out-of-domain input. -/
inductive PyError where
  | zeroDivisionError : PyError
  | valueError : PyError
deriving DecidableEq

/-- `calculate_pd_current` with Python's exception behaviour made explicit:
each float division checks its denominator for zero and `math.sqrt` /
`math.log10` check their domains, in the evaluation order of the source.
The `Except.ok` value is the triple of printed quantities
(irradiance, current, SNR). -/
noncomputable def calculate_pd_current_run (p : UplinkParams) :
    Except PyError (ℝ × ℝ × ℝ) :=
  let a : ℝ := 1e-2
  let b : ℝ := 1e-2
  let d := p.distance
  if 4 * d ^ 2 + a ^ 2 + b ^ 2 < 0 then Except.error PyError.valueError
  else if 2 * d * Real.sqrt (4 * d ^ 2 + a ^ 2 + b ^ 2) = 0 then
    Except.error PyError.zeroDivisionError
  else
    let angle := 4 * Real.arctan (a * b / (2 * d * Real.sqrt (4 * d ^ 2 + a ^ 2 + b ^ 2)))
    let irr := p.led_Ie * (p.led_current / 20e-3) * angle
    let cur := p.pd_eff * irr
    if p.pd_Ir0 = 0 then Except.error PyError.zeroDivisionError
    else if cur / p.pd_Ir0 ≤ 0 then Except.error PyError.valueError
    else Except.ok (irr, cur, 20 * Real.logb 10 (cur / p.pd_Ir0))

/-- C5: under the stated precondition (radiant intensity, drive current,
photodiode efficiency positive, `distance > 0`, dark current nonnegative),
`calculate_pd_current` raises an arithmetic error if and only if the
dark-current input `pd_Ir0` is zero; in particular for nonzero dark current
no division-by-zero or log-domain error occurs. -/
theorem pd_current_error_iff_zero_dark_current (p : UplinkParams)
    (hIe : 0 < p.led_Ie) (hcur : 0 < p.led_current) (heff : 0 < p.pd_eff)
    (hd : 0 < p.distance) (hIr : 0 ≤ p.pd_Ir0) :
    (∃ e, calculate_pd_current_run p = Except.error e) ↔ p.pd_Ir0 = 0 := by
  have hsq : (0 : ℝ) ≤ 4 * p.distance ^ 2 + (1e-2 : ℝ) ^ 2 + (1e-2 : ℝ) ^ 2 := by positivity
  have hsqpos : (0 : ℝ) < 4 * p.distance ^ 2 + (1e-2 : ℝ) ^ 2 + (1e-2 : ℝ) ^ 2 := by positivity
  have hden : (0 : ℝ) <
      2 * p.distance * Real.sqrt (4 * p.distance ^ 2 + (1e-2 : ℝ) ^ 2 + (1e-2 : ℝ) ^ 2) := by
    have := Real.sqrt_pos.2 hsqpos
    positivity
  constructor
  · rintro ⟨e, he⟩
    by_contra hIr0
    have hIrpos : 0 < p.pd_Ir0 := lt_of_le_of_ne hIr (Ne.symm hIr0)
    have hangle : (0 : ℝ) <
        4 * Real.arctan ((1e-2 : ℝ) * 1e-2 /
          (2 * p.distance * Real.sqrt (4 * p.distance ^ 2 + (1e-2 : ℝ) ^ 2 + (1e-2 : ℝ) ^ 2))) := by
      have harg : (0 : ℝ) < (1e-2 : ℝ) * 1e-2 /
          (2 * p.distance * Real.sqrt (4 * p.distance ^ 2 + (1e-2 : ℝ) ^ 2 + (1e-2 : ℝ) ^ 2)) := by
        positivity
      have := Real.arctan_zero ▸ Real.arctan_strictMono harg
      linarith
    have hcurpos : (0 : ℝ) < p.pd_eff * (p.led_Ie * (p.led_current / 20e-3) *
        (4 * Real.arctan ((1e-2 : ℝ) * 1e-2 /
          (2 * p.distance * Real.sqrt (4 * p.distance ^ 2 + (1e-2 : ℝ) ^ 2 + (1e-2 : ℝ) ^ 2))))) := by
      have h20 : (0 : ℝ) < p.led_current / 20e-3 := by positivity
      positivity
    rw [calculate_pd_current_run] at he
    rw [if_neg (not_lt.2 hsq), if_neg (ne_of_gt hden), if_neg hIr0,
      if_neg (not_le.2 (div_pos hcurpos hIrpos))] at he
    exact Except.noConfusion he
  · intro h0
    refine ⟨PyError.zeroDivisionError, ?_⟩
    rw [calculate_pd_current_run]
    rw [if_neg (not_lt.2 hsq), if_neg (ne_of_gt hden), if_pos h0]

/-- Witness for C5 at the notebook's uplink parameters (whose dark current
`30e-9` is nonzero, so the run succeeds). -/
theorem pd_current_error_iff_zero_dark_current_witness :
    ((∃ e, calculate_pd_current_run uplinkPar = Except.error e) ↔
      uplinkPar.pd_Ir0 = 0) ∧ uplinkPar.pd_Ir0 ≠ 0 :=
  ⟨pd_current_error_iff_zero_dark_current uplinkPar
      (by norm_num [uplinkPar]) (by norm_num [uplinkPar]) (by norm_num [uplinkPar])
      (by norm_num [uplinkPar]) (by norm_num [uplinkPar]),
    by norm_num [uplinkPar]⟩

/-- A value of the notebook's `par` dictionary: either a numeric constant or
a spectral-response curve given as parallel `x`/`y` sequences. -/
inductive PVal where
  | num : ℝ → PVal
  | curve : List ℝ → List ℝ → PVal

/-- A section of the `par` dictionary: an ordered key/value association,
mirroring a Python `dict` (keys unique, insertion-ordered). -/
abbrev Sect := List (String × PVal)

/-- Python `d[k]` / `k in d` over the association-list model: the value at
the first occurrence of key `k`. -/
def lookupKey (k : String) : Sect → Option PVal
  | [] => none
  | kv :: t => if k = kv.1 then some kv.2 else lookupKey k t

/-- One iteration of the startup merge loop body:
`if k not in par[sk]: par[sk][k] = par['common'][k]` (a Python dict insert
appends the new key at the end). -/
def mergeStep (acc : Sect) (kv : String × PVal) : Sect :=
  if (lookupKey kv.1 acc).isSome then acc else acc ++ [kv]

/-- The effect of the inner merge loop `for k in par['common']: ...` on one
section. -/
def mergeCommon (common sec : Sect) : Sect :=
  common.foldl mergeStep sec

/-- `par['common']` from the notebook. -/
noncomputable def parCommon : Sect :=
  [("distance", PVal.num 10e-3)]

/-- `par['uplink']` from the notebook (before the merge loop). -/
noncomputable def parUplink : Sect :=
  [("led_Ie", PVal.num (145.0e-3 / 100 * 20)),
   ("led_theta", PVal.num 20),
   ("led_current", PVal.num 20e-3),
   ("pd_eff", PVal.num 32e-6),
   ("pd_Ir0", PVal.num 30e-9)]

/-- `par['downlink']` from the notebook (before the merge loop), with the two
spectral-response tables transcribed verbatim. -/
noncomputable def parDownlink : Sect :=
  [("als_IPH3", PVal.num 520e-6),
   ("led_IV_typ", PVal.num 60e-3),
   ("als_spectral_response", PVal.curve
      [299.372, 340.167, 377.824, 426.778, 470.711, 528.452, 569.874, 607.531,
       618.828, 627.615, 635.146, 638.912, 652.72, 664.017, 667.782, 685.356,
       697.908, 726.778, 749.372, 843.515, 894.351]
      [3.659, 5.488, 9.451, 22.866, 40.244, 63.11, 81.402, 94.512, 96.646,
       99.695, 96.341, 79.878, 60.366, 40.244, 32.317, 19.512, 12.805, 9.756,
       7.927, 8.232, 7.317]),
   ("led_spectral_response", PVal.curve
      [373.584, 439.648, 489.746, 537.5, 554.199, 563.281, 569.434, 574.414,
       579.688, 588.184, 590.82, 592.578, 595.215, 597.559, 598.145, 601.953,
       606.934, 610.742, 618.652, 630.078, 793.555, 796.631]
      [0.005, 0.005, 0.004, 0.002, 0.008, 0.031, 0.067, 0.125, 0.274, 0.806,
       0.993, 0.994, 0.776, 0.475, 0.318, 0.185, 0.077, 0.034, 0.01, 0.004,
       0.001, 0.004])]

/-- The notebook's `par` table before the merge loop. -/
noncomputable def par : List (String × Sect) :=
  [("common", parCommon), ("uplink", parUplink), ("downlink", parDownlink)]

/-- The `par` table after the startup merge loop
`for sk in par: if sk != 'common': for k in par['common']: ...`
(the loop leaves `par['common']` itself untouched, so reading
`par['common']` during the loop always yields `parCommon`). -/
noncomputable def mergedPar : List (String × Sect) :=
  par.map (fun p => if p.1 = "common" then p else (p.1, mergeCommon parCommon p.2))

/-- A key found in a prefix is found in the whole list, with the same value. -/
lemma lookupKey_append_left {l₁ : Sect} (l₂ : Sect) {k : String} {v : PVal}
    (h : lookupKey k l₁ = some v) : lookupKey k (l₁ ++ l₂) = some v := by
  induction l₁ with
  | nil => exact absurd h (by simp [lookupKey])
  | cons kv t ih =>
    rw [List.cons_append]
    rw [lookupKey] at h ⊢
    by_cases hk : k = kv.1
    · rwa [if_pos hk] at h ⊢
    · rw [if_neg hk] at h ⊢
      exact ih h

/-- Appending a fresh key makes it visible to lookup. -/
lemma lookupKey_append_fresh {l : Sect} {k : String} (v : PVal)
    (h : lookupKey k l = none) : lookupKey k (l ++ [(k, v)]) = some v := by
  induction l with
  | nil => simp [lookupKey]
  | cons kv t ih =>
    rw [lookupKey] at h
    rw [List.cons_append, lookupKey]
    by_cases hk : k = kv.1
    · rw [if_pos hk] at h
      exact absurd h (by simp)
    · rw [if_neg hk] at h ⊢
      exact ih h

/-- The merge loop never changes the value of a key that is already
present. -/
lemma mergeCommon_preserves (common : Sect) :
    ∀ (acc : Sect) (k : String) (v : PVal),
      lookupKey k acc = some v → lookupKey k (mergeCommon common acc) = some v := by
  induction common with
  | nil => intro acc k v h; exact h
  | cons kv t ih =>
    intro acc k v h
    show lookupKey k (List.foldl mergeStep (mergeStep acc kv) t) = some v
    apply ih
    unfold mergeStep
    by_cases hc : (lookupKey kv.1 acc).isSome
    · rwa [if_pos hc]
    · rw [if_neg hc]
      exact lookupKey_append_left _ h

/-- `isSome` version of `mergeCommon_preserves`. -/
lemma mergeCommon_preserves_isSome (common acc : Sect) (k : String)
    (h : (lookupKey k acc).isSome) : (lookupKey k (mergeCommon common acc)).isSome := by
  obtain ⟨v, hv⟩ := Option.isSome_iff_exists.1 h
  exact Option.isSome_iff_exists.2 ⟨v, mergeCommon_preserves common acc k v hv⟩

/-- After the merge loop, every key of the common section is present. -/
lemma mergeCommon_covers (common : Sect) :
    ∀ (acc : Sect) (k : String),
      (lookupKey k common).isSome → (lookupKey k (mergeCommon common acc)).isSome := by
  induction common with
  | nil => intro acc k h; simp [lookupKey] at h
  | cons kv t ih =>
    intro acc k h
    rw [lookupKey] at h
    show (lookupKey k (List.foldl mergeStep (mergeStep acc kv) t)).isSome
    by_cases hk : k = kv.1
    · have hstep : (lookupKey k (mergeStep acc kv)).isSome := by
        unfold mergeStep
        rw [hk]
        by_cases hc : (lookupKey kv.1 acc).isSome
        · rwa [if_pos hc]
        · rw [if_neg hc]
          have hnone : lookupKey kv.1 acc = none := Option.not_isSome_iff_eq_none.1 hc
          rw [lookupKey_append_fresh kv.2 hnone]
          rfl
      exact mergeCommon_preserves_isSome t (mergeStep acc kv) k hstep
    · rw [if_neg hk] at h
      exact ih (mergeStep acc kv) k h

/-- C6: after the one-time startup merge loop, every section of `par` other
than `'common'` contains every key of the `'common'` section, every key
already present in a section before the merge retains exactly its original
value, and the `'common'` section itself is unchanged by the merge. -/
theorem par_common_merge :
    (∀ sk sec₀, (sk, sec₀) ∈ par → sk ≠ "common" →
      (sk, mergeCommon parCommon sec₀) ∈ mergedPar ∧
      (∀ k, (lookupKey k parCommon).isSome = true →
        (lookupKey k (mergeCommon parCommon sec₀)).isSome = true) ∧
      (∀ k v, lookupKey k sec₀ = some v →
        lookupKey k (mergeCommon parCommon sec₀) = some v)) ∧
    ("common", parCommon) ∈ mergedPar := by
  constructor
  · intro sk sec₀ hmem hne
    refine ⟨?_, fun k hk => mergeCommon_covers parCommon sec₀ k hk,
      fun k v hv => mergeCommon_preserves parCommon sec₀ k v hv⟩
    simp only [par, List.mem_cons, List.not_mem_nil, or_false, Prod.mk.injEq] at hmem
    rcases hmem with ⟨rfl, rfl⟩ | ⟨rfl, rfl⟩ | ⟨rfl, rfl⟩
    · exact absurd rfl hne
    · simp [mergedPar, par]
    · simp [mergedPar, par]
  · simp [mergedPar, par]

/-- Witness for C6: in the merged uplink section, the inherited `distance`
key is present and the pre-existing `led_current` key keeps its value. -/
theorem par_common_merge_witness :
    (lookupKey "distance" (mergeCommon parCommon parUplink)).isSome = true ∧
    lookupKey "led_current" (mergeCommon parCommon parUplink) = some (PVal.num 20e-3) :=
  ⟨((par_common_merge.1 "uplink" parUplink (by simp [par]) (by decide)).2).1 "distance"
      (by simp [lookupKey, parCommon]),
   ((par_common_merge.1 "uplink" parUplink (by simp [par]) (by decide)).2).2 "led_current" _
      (by simp [lookupKey, parUplink])⟩

/-- A sampled spectral-response curve: ordered (wavelength, relative
response) pairs, as stored in `par[...]['..._spectral_response']`. -/
abbrev Curve := List (ℝ × ℝ)

/-- Multiply all y-values of a curve by `k` (amplitude scaling). -/
def scaleY (k : ℝ) (c : Curve) : Curve :=
  c.map (fun p => (p.1, k * p.2))

/-- The maximum y-value of a curve (0 for the empty curve). -/
def maxY (c : Curve) : ℝ :=
  (c.map Prod.snd).foldr max 0

/-- Modelled from the spec: the `colour` library is not part of this
repository, so `SpectralDistribution.normalise()` is modelled from the
spec's "normalizes ... spectral curves": every y-value is rescaled so that
the curve's maximum becomes the library's default factor 100; the curve
therefore depends only on its shape. -/
noncomputable def normaliseCurve (c : Curve) : Curve :=
  c.map (fun p => (p.1, p.2 * (100 / maxY c)))

/-- Modelled from the spec: the `colour` library is not part of this
repository, so `.interpolate(obs.shape)` is modelled from the spec's
"interpolates spectral curves onto a standard observer's wavelength grid"
as piecewise-linear interpolation through the curve's sample points. -/
noncomputable def interpAt : Curve → ℝ → ℝ
  | [], _ => 0
  | [p], _ => p.2
  | p :: q :: rest, x =>
    if x ≤ q.1 then p.2 + (q.2 - p.2) * (x - p.1) / (q.1 - p.1)
    else interpAt (q :: rest) x

/-- Modelled from the spec: the `colour` library is not part of this
repository, so `colour.luminous_efficiency(sd, lef)` is modelled from the
spec's "luminous-efficiency overlap integral" as the overlap sum of the
distribution `sd` with the efficiency curve `lef` on a common grid,
normalised by the integral of `sd`. -/
noncomputable def luminous_efficiency (sd lef : List ℝ) : ℝ :=
  (List.zipWith (fun a b => a * b) lef sd).sum / sd.sum

/-- The efficiency `eff = colour.luminous_efficiency(dis_led, dis_pt)` of the
first `calculate_pt_current` variant: both raw curves are normalised, then
interpolated onto the observer grid, then overlapped. -/
noncomputable def pt1_eff (ledCurve ptCurve : Curve) (grid : List ℝ) : ℝ :=
  luminous_efficiency (grid.map (interpAt (normaliseCurve ledCurve)))
    (grid.map (interpAt (normaliseCurve ptCurve)))

/-- The current printed by the first `calculate_pt_current` variant:
`I = als_IPH3 * eff * irr_act/irr_ref` with
`irr_act = led_IV_typ * angle_norm * 100 * 100` and `irr_ref = 1000`. -/
noncomputable def calculate_pt_current_v1 (als_IPH3 led_IV_typ d : ℝ)
    (ledCurve ptCurve : Curve) (grid : List ℝ) : ℝ :=
  als_IPH3 * pt1_eff ledCurve ptCurve grid *
    (led_IV_typ * angle_norm 1e-2 1e-2 d * 100 * 100 / 1000)

/-- `scipy.constants.sigma`, the Stefan-Boltzmann constant in W m⁻² K⁻⁴. -/
noncomputable def sigma_SB : ℝ := 5.670374419e-8

/-- The second (black-body) `calculate_pt_current` variant. Its inputs are
the Stefan-Boltzmann constant `sigma`, the library value
`colour.luminous_efficacy(colour.sd_CIE_standard_illuminant_A())` in lm/W
(`eff_lm_per_watt`, an external datum), the reference photocurrent
`als_IPH3`, the module-level global `spec` holding a spectral curve, and the
observer grid with its efficiency values. It returns the pair of printed
values `(irr_mw_per_cm2, normalized_response)`. The Stefan-Boltzmann
`power_per_area` is computed exactly as in the source. -/
noncomputable def calculate_pt_current_v2 (sigma eff_lm_per_watt als_IPH3 : ℝ)
    (specGlobal : Curve) (grid obsV : List ℝ) : ℝ × ℝ :=
  let T : ℝ := 2856
  let power_per_area := 1.0 * sigma * T ^ 4
  let irr_watt_per_m2 := 1000 / eff_lm_per_watt
  let irr_mw_per_cm2 := irr_watt_per_m2 * 1e3 / 100 / 100
  let dis := grid.map (interpAt (normaliseCurve specGlobal))
  let eff_pt := luminous_efficiency dis obsV
  let normalized_response := als_IPH3 / (irr_mw_per_cm2 * eff_pt)
  (irr_mw_per_cm2, normalized_response)

/-- Scaling all entries of a list by a nonnegative factor scales the running
maximum (with base 0). -/
lemma foldr_max_map_mul (k : ℝ) (hk : 0 ≤ k) (ys : List ℝ) :
    (ys.map (fun y => k * y)).foldr max 0 = k * ys.foldr max 0 := by
  induction ys with
  | nil => simp
  | cons y t ih =>
    simp only [List.map_cons, List.foldr_cons, ih]
    exact (mul_max_of_nonneg y _ hk).symm

/-- Amplitude scaling of a curve scales its maximum y-value. -/
lemma maxY_scaleY (k : ℝ) (hk : 0 ≤ k) (c : Curve) : maxY (scaleY k c) = k * maxY c := by
  unfold maxY scaleY
  rw [List.map_map]
  have : (Prod.snd ∘ fun p : ℝ × ℝ => (p.1, k * p.2)) = (fun y => k * y) ∘ Prod.snd := rfl
  rw [this, ← List.map_map]
  exact foldr_max_map_mul k hk (c.map Prod.snd)

/-- Normalisation cancels amplitude scaling: `normalise` of a `k`-scaled
curve (for `k > 0`) is the `normalise` of the original curve. -/
lemma normaliseCurve_scaleY (k : ℝ) (hk : 0 < k) (c : Curve) :
    normaliseCurve (scaleY k c) = normaliseCurve c := by
  unfold normaliseCurve
  rw [maxY_scaleY k hk.le c]
  unfold scaleY
  rw [List.map_map]
  refine List.map_congr_left ?_
  intro p hp
  simp only [Function.comp_apply]
  rcases eq_or_ne (maxY c) 0 with hM | hM
  · simp [hM, mul_comm]
  · congr 1
    field_simp
    ring

/-- C8: the spectral-overlap efficiency of the first `calculate_pt_current`
variant is invariant under positive amplitude scaling of either input
curve, and hence so is the printed current: both curves are normalised
before the overlap is computed. -/
theorem spectral_overlap_scale_invariant :
    ∀ (k a iv d : ℝ) (led pt : Curve) (grid : List ℝ), 0 < k →
      pt1_eff (scaleY k led) pt grid = pt1_eff led pt grid ∧
      pt1_eff led (scaleY k pt) grid = pt1_eff led pt grid ∧
      calculate_pt_current_v1 a iv d (scaleY k led) pt grid =
        calculate_pt_current_v1 a iv d led pt grid ∧
      calculate_pt_current_v1 a iv d led (scaleY k pt) grid =
        calculate_pt_current_v1 a iv d led pt grid := by
  intro k a iv d led pt grid hk
  have h1 := normaliseCurve_scaleY k hk led
  have h2 := normaliseCurve_scaleY k hk pt
  refine ⟨?_, ?_, ?_, ?_⟩ <;> simp [pt1_eff, calculate_pt_current_v1, h1, h2]

/-- Witness for C8: doubling the LED curve's amplitude leaves the overlap
efficiency unchanged on a one-point curve and grid. -/
theorem spectral_overlap_scale_invariant_witness :
    pt1_eff (scaleY 2 [((500 : ℝ), (1 : ℝ))]) [((500 : ℝ), (1 : ℝ))] [500] =
      pt1_eff [((500 : ℝ), (1 : ℝ))] [((500 : ℝ), (1 : ℝ))] [500] :=
  (spectral_overlap_scale_invariant 2 1 1 1 [((500 : ℝ), (1 : ℝ))]
    [((500 : ℝ), (1 : ℝ))] [500] two_pos).1

/-- C7 counterexample: in the black-body variant, the reference irradiance
entering `normalized_response` (first printed value, with the library
luminous-efficacy value 155 lm/W from the notebook's own scratch cell) is
NOT the Stefan-Boltzmann power per area `sigma*T^4` (converted to the same
mW/cm² unit), and the output does not depend on `sigma` at all. -/
theorem blackbody_irradiance_counterexample :
    (calculate_pt_current_v2 sigma_SB 155 520e-6 [((500 : ℝ), (1 : ℝ))] [500] [1]).1 ≠
      1.0 * sigma_SB * 2856 ^ 4 * 1e3 / 100 / 100 ∧
    calculate_pt_current_v2 0 155 520e-6 [((500 : ℝ), (1 : ℝ))] [500] [1] =
      calculate_pt_current_v2 sigma_SB 155 520e-6 [((500 : ℝ), (1 : ℝ))] [500] [1] := by
  constructor
  · norm_num [calculate_pt_current_v2, sigma_SB]
  · rfl

/-- C7 amended: the black-body `power_per_area = sigma*T^4` is computed by
the second `calculate_pt_current` variant but never used; the reference
irradiance entering `normalized_response` is 1000 lx divided by the
luminous efficacy of CIE standard illuminant A (converted to mW/cm²), so
the output is independent of the Stefan-Boltzmann constant. -/
theorem blackbody_power_unused :
    ∀ (s₁ s₂ eff a : ℝ) (sp : Curve) (grid obsV : List ℝ),
      calculate_pt_current_v2 s₁ eff a sp grid obsV =
        calculate_pt_current_v2 s₂ eff a sp grid obsV ∧
      (calculate_pt_current_v2 s₁ eff a sp grid obsV).1 =
        1000 / eff * 1e3 / 100 / 100 ∧
      (calculate_pt_current_v2 s₁ eff a sp grid obsV).2 =
        a / (1000 / eff * 1e3 / 100 / 100 *
          luminous_efficiency (grid.map (interpAt (normaliseCurve sp))) obsV) := by
  intro s₁ s₂ eff a sp grid obsV
  exact ⟨rfl, rfl, rfl⟩

/-- C10 counterexample: two runs of the black-body variant that agree on all
parameters but differ in the global `spec` can still print the same
normalized response, because amplitude scaling is removed by
normalisation. -/
theorem pt2_differing_spec_same_output :
    ([((0 : ℝ), (1 : ℝ))] : Curve) ≠ [((0 : ℝ), (2 : ℝ))] ∧
    calculate_pt_current_v2 sigma_SB 155 520e-6 [((0 : ℝ), (1 : ℝ))] [0] [1] =
      calculate_pt_current_v2 sigma_SB 155 520e-6 [((0 : ℝ), (2 : ℝ))] [0] [1] := by
  constructor
  · intro h
    simp only [List.cons.injEq, Prod.mk.injEq, and_true] at h
    exact absurd h.2 (by norm_num)
  · have h : ([((0 : ℝ), (2 : ℝ))] : Curve) = scaleY 2 [((0 : ℝ), (1 : ℝ))] := by
      norm_num [scaleY]
    rw [h]
    simp [calculate_pt_current_v2, normaliseCurve_scaleY 2 two_pos]

/-- C10 amended: the black-body variant reads the module-level global `spec`
(not a parameter): there exist two runs agreeing on the whole parameter
table but differing in the global `spec` whose printed normalized responses
differ, so the output is not a function of `par` alone. -/
theorem pt2_output_depends_on_global_spec :
    (calculate_pt_current_v2 sigma_SB 155 520e-6
        [((0 : ℝ), (1 : ℝ)), ((1 : ℝ), (1 : ℝ))] [0, 1] [1, 0]).2 ≠
      (calculate_pt_current_v2 sigma_SB 155 520e-6
        [((0 : ℝ), (1 : ℝ)), ((1 : ℝ), (3 : ℝ))] [0, 1] [1, 0]).2 := by
  norm_num [calculate_pt_current_v2, luminous_efficiency, interpAt,
    normaliseCurve, maxY, max_def, sigma_SB]

/-- `arctan x ≤ x` for nonnegative `x`. -/
lemma arctan_le_self_of_nonneg (x : ℝ) (hx : 0 ≤ x) : Real.arctan x ≤ x := by
  rcases eq_or_lt_of_le hx with h | h
  · simp [← h]
  · have hpos : 0 < Real.arctan x := by
      have := Real.arctan_zero ▸ Real.arctan_strictMono h
      linarith
    have := Real.lt_tan hpos (Real.arctan_lt_pi_div_two x)
    rw [Real.tan_arctan] at this
    exact this.le

/-- `x / sqrt (1 + x^2) ≤ arctan x` for nonnegative `x`. -/
lemma div_sqrt_le_arctan (x : ℝ) (hx : 0 ≤ x) :
    x / Real.sqrt (1 + x ^ 2) ≤ Real.arctan x := by
  rw [Real.arctan_eq_arcsin]
  set y := x / Real.sqrt (1 + x ^ 2) with hy
  have hs : (0 : ℝ) < Real.sqrt (1 + x ^ 2) := Real.sqrt_pos.2 (by positivity)
  have hy0 : 0 ≤ y := div_nonneg hx hs.le
  have hy1 : y ≤ 1 := by
    rw [hy, div_le_one hs]
    have : x = Real.sqrt (x ^ 2) := (Real.sqrt_sq hx).symm
    rw [this]
    exact Real.sqrt_le_sqrt (by nlinarith)
  rcases eq_or_lt_of_le hy0 with h0 | h0
  · simp [← h0]
  · have harc : 0 < Real.arcsin y := Real.arcsin_pos.2 h0
    have hsin : Real.sin (Real.arcsin y) = y := Real.sin_arcsin (by linarith) hy1
    have := Real.sin_lt harc
    rw [hsin] at this
    exact this.le

/-- Double-angle identity for `arctan` at small positive arguments. -/
lemma arctan_double (u : ℝ) (h0 : 0 < u) (h1 : u ≤ 1 / 2) :
    Real.arctan (2 * u / (1 - u ^ 2)) = 2 * Real.arctan u := by
  have htan : Real.tan (Real.arctan u) = u := Real.tan_arctan u
  have hθ0 : 0 < Real.arctan u := by
    have := Real.arctan_zero ▸ Real.arctan_strictMono h0
    linarith
  have hθle : Real.arctan u ≤ u := arctan_le_self_of_nonneg u h0.le
  have hπ : (3 : ℝ) < Real.pi := Real.pi_gt_three
  have h2θ : 2 * Real.arctan u < Real.pi / 2 := by linarith
  have hrw : 2 * u / (1 - u ^ 2) = Real.tan (2 * Real.arctan u) := by
    rw [Real.tan_two_mul, htan]
  rw [hrw, Real.arctan_tan (by linarith) h2θ]

/-- C9: with the notebook's hard-coded constants (`distance = 10e-3`, square
side `1e-2`, `led_Ie = 145.0e-3/100*20 = 0.029`, `led_current/20e-3 = 1`)
the irradiance computed by `calculate_pd_current` equals
`0.029 * 4*atan(1e-4/(2*0.01*sqrt(4e-4+2e-4)))` and lies strictly inside
`(0.0225, 0.0235)`, so `%.3f` formatting prints the value `0.023` mW/cm². -/
theorem pd_example_irradiance :
    irradiance_pd uplinkPar =
      0.029 * (4 * Real.arctan (1e-4 / (2 * 0.01 * Real.sqrt (4e-4 + 2e-4)))) ∧
    0.0225 < irradiance_pd uplinkPar ∧ irradiance_pd uplinkPar < 0.0235 := by
  have e1 : irradiance_pd uplinkPar =
      0.029 * (4 * Real.arctan (0.0001 / (0.02 * Real.sqrt 0.0006))) := by
    simp only [irradiance_pd, uplinkPar, angle_norm]
    norm_num
  have e2 : (0.029 : ℝ) * (4 * Real.arctan (1e-4 / (2 * 0.01 * Real.sqrt (4e-4 + 2e-4)))) =
      0.029 * (4 * Real.arctan (0.0001 / (0.02 * Real.sqrt 0.0006))) := by
    norm_num
  have hs_lo : (0.0244948 : ℝ) < Real.sqrt 0.0006 :=
    (Real.lt_sqrt (by norm_num)).2 (by norm_num)
  have hs_hi : Real.sqrt 0.0006 < 0.0244949 :=
    (Real.sqrt_lt' (by norm_num)).2 (by norm_num)
  have hspos : (0 : ℝ) < Real.sqrt 0.0006 := lt_trans (by norm_num) hs_lo
  have hdpos : (0 : ℝ) < 0.02 * Real.sqrt 0.0006 := by positivity
  have hd_hi : (0.02 : ℝ) * Real.sqrt 0.0006 < 0.000489898 := by
    have := mul_lt_mul_of_pos_left hs_hi (show (0 : ℝ) < 0.02 by norm_num)
    linarith
  have hd_lo : (0.000489896 : ℝ) < 0.02 * Real.sqrt 0.0006 := by
    have := mul_lt_mul_of_pos_left hs_lo (show (0 : ℝ) < 0.02 by norm_num)
    linarith
  have ht_lo : (0.204124 : ℝ) < 0.0001 / (0.02 * Real.sqrt 0.0006) := by
    have h1 : (0.0001 : ℝ) / 0.000489898 < 0.0001 / (0.02 * Real.sqrt 0.0006) :=
      (div_lt_div_left (by norm_num) (by norm_num) hdpos).2 hd_hi
    have h2 : (0.204124 : ℝ) < 0.0001 / 0.000489898 := by norm_num
    linarith
  have ht_hi : (0.0001 : ℝ) / (0.02 * Real.sqrt 0.0006) < 0.204125 := by
    have h1 : (0.0001 : ℝ) / (0.02 * Real.sqrt 0.0006) < 0.0001 / 0.000489896 :=
      (div_lt_div_left (by norm_num) hdpos (by norm_num)).2 hd_lo
    have h2 : (0.0001 : ℝ) / 0.000489896 < 0.204125 := by norm_num
    linarith
  have hlow : (0.19999 : ℝ) < Real.arctan (0.0001 / (0.02 * Real.sqrt 0.0006)) := by
    have hm := Real.arctan_strictMono ht_lo
    have hsq2 : Real.sqrt (1 + (0.204124 : ℝ) ^ 2) < 1.020621 :=
      (Real.sqrt_lt' (by norm_num)).2 (by norm_num)
    have hsq2pos : (0 : ℝ) < Real.sqrt (1 + (0.204124 : ℝ) ^ 2) :=
      Real.sqrt_pos.2 (by norm_num)
    have h1 : (0.204124 : ℝ) / 1.020621 < 0.204124 / Real.sqrt (1 + (0.204124 : ℝ) ^ 2) :=
      (div_lt_div_left (by norm_num) (by norm_num) hsq2pos).2 hsq2
    have h2 := div_sqrt_le_arctan 0.204124 (by norm_num)
    have h3 : (0.19999 : ℝ) < 0.204124 / 1.020621 := by norm_num
    linarith
  have hhi : Real.arctan (0.0001 / (0.02 * Real.sqrt 0.0006)) < 0.20206 := by
    have h1 := Real.arctan_strictMono ht_hi
    have h2 : Real.arctan (0.204125 : ℝ) ≤
        Real.arctan (2 * 0.10103 / (1 - (0.10103 : ℝ) ^ 2)) :=
      Real.arctan_strictMono.monotone (by norm_num)
    have h3 : Real.arctan (2 * 0.10103 / (1 - (0.10103 : ℝ) ^ 2)) =
        2 * Real.arctan 0.10103 := arctan_double 0.10103 (by norm_num) (by norm_num)
    have h4 : Real.arctan (0.10103 : ℝ) ≤ 0.10103 :=
      arctan_le_self_of_nonneg _ (by norm_num)
    linarith
  refine ⟨e1.trans e2.symm, ?_, ?_⟩ <;> rw [e1] <;> linarith
